import Mathlib

/-!
Verification development for the reago client library (Rackspace Email v1 API
client). The definitions below are a shallow embedding of the Go source:

  - `PageOptions`, `defaultPageSize`, `addOptions` query encoding (reago.go)
  - `DomainsServiceOp.Index` and `RackspaceEmailAliasesServiceOp.Index`
    pagination loops (domains.go / rackspace_email_aliases.go), embedded as
    fuel-bounded recursion over an injected per-call fetch function
  - `CheckResponse` response classification and `ErrorResponse` (reago.go)
  - the decode dispatch and rate-limiter selection inside `Client.Do` (reago.go)
  - `Client.sign` signature computation and `Client.NewRequest` headers
    (reago.go)
-/

/-- `PageOptions` from reago.go: request pagination options.
Go ints are modelled as `Int` (no arithmetic here approaches word size). -/
structure PageOptions where
  offset : Int
  size : Int
deriving DecidableEq

/-- `defaultPageSize` constant from reago.go. -/
def defaultPageSize : Int := 50

/-- The recurring page-envelope shape decoded from a listing response:
`domainsRoot` / `rackspaceEmailAliasesRoot` with fields offset, size, total
and the named item array. -/
structure PageEnv (α : Type) where
  offset : Int
  size : Int
  total : Int
  items : List α
deriving DecidableEq

/-- The pair returned by one `Client.Do` call inside a pagination loop: the
(possibly nil) `*Response`, modelled as an abstract identifier, and either the
decoded page envelope or the error. -/
structure DoResult (α : Type) where
  resp : Option Nat
  out : Except String (PageEnv α)

/-- The triple returned by an Index method: the item slice (Go nil slice is
`[]`), the `*Response` (nil is `none`) and the error (nil is `none`). -/
structure IndexReturn (α : Type) where
  items : List α
  resp : Option Nat
  err : Option String
deriving DecidableEq

/-- `ArgError` from godo_error.go. -/
structure ArgError where
  arg : String
  reason : String

/-- `ArgError.Error()`: formats as arg is invalid because reason. -/
def ArgError.message (e : ArgError) : String :=
  e.arg ++ " is invalid because " ++ e.reason

/-- Loop body of `DomainsServiceOp.Index` (domains source, lines 89-112),
with the per-iteration `Client.Do` call injected as `fetch` indexed by the
call number `n`. In the source, `resp, err = s.client.Do(ctx, req, root)`
assigns the OUTER `resp`, so both the error return and the break return the
response of the call just made. Fuel bounds the unbounded Go `for` loop;
`none` means the fuel ran out. The result also carries the total number of
fetch calls performed. -/
def domainsIndexLoop {α : Type} (fetch : Nat → DoResult α) :
    Nat → Nat → PageOptions → List α → Option Nat → Option (IndexReturn α × Nat)
  | 0, _, _, _, _ => none
  | fuel + 1, n, opt, domains, _resp =>
    let r := fetch n
    match r.out with
    | Except.error e => some (⟨[], r.resp, some e⟩, n + 1)
    | Except.ok root =>
      let domains := domains ++ root.items
      if root.total ≤ root.size + root.offset then
        some (⟨domains, r.resp, none⟩, n + 1)
      else
        domainsIndexLoop fetch fuel (n + 1) ⟨root.size + root.offset, opt.size⟩ domains r.resp

/-- Loop body of `RackspaceEmailAliasesServiceOp.Index` (aliases source,
lines 423-446). Unlike the domains loop, the source writes
`resp, err := s.client.Do(ctx, req, root)` with `:=`, declaring a NEW
loop-local `resp` that shadows the outer one: the outer `resp` (threaded here
as `outerResp`) is never assigned, so the break path returns `outerResp`
unchanged while the error path returns the loop-local response. -/
def rackspaceEmailAliasesIndexLoop {α : Type} (fetch : Nat → DoResult α) :
    Nat → Nat → PageOptions → List α → Option Nat → Option (IndexReturn α × Nat)
  | 0, _, _, _, _ => none
  | fuel + 1, n, opt, aliases, outerResp =>
    let r := fetch n
    match r.out with
    | Except.error e => some (⟨[], r.resp, some e⟩, n + 1)
    | Except.ok root =>
      let aliases := aliases ++ root.items
      if root.total ≤ root.size + root.offset then
        some (⟨aliases, outerResp, none⟩, n + 1)
      else
        rackspaceEmailAliasesIndexLoop fetch fuel (n + 1)
          ⟨root.size + root.offset, opt.size⟩ aliases outerResp

/-- `DomainsServiceOp.Index`: nil options become offset 0 with the default
page size, then the loop runs from call 0 with an empty accumulator and a nil
outer response. -/
def domainsIndex {α : Type} (fetch : Nat → DoResult α) (fuel : Nat)
    (opt : Option PageOptions) : Option (IndexReturn α × Nat) :=
  let o := match opt with
    | none => (⟨0, defaultPageSize⟩ : PageOptions)
    | some o => o
  domainsIndexLoop fetch fuel 0 o [] none

/-- `RackspaceEmailAliasesServiceOp.Index`: an empty domain fails with an
`ArgError` before any fetch; otherwise as `domainsIndex`, with the shadowed
loop as described at `rackspaceEmailAliasesIndexLoop`. -/
def rackspaceEmailAliasesIndex {α : Type} (fetch : Nat → DoResult α) (fuel : Nat)
    (opt : Option PageOptions) (domain : String) : Option (IndexReturn α × Nat) :=
  if domain.length < 1 then
    some (⟨[], none, some (ArgError.message ⟨"domain", "it cannot be an empty string"⟩)⟩, 0)
  else
    let o := match opt with
      | none => (⟨0, defaultPageSize⟩ : PageOptions)
      | some o => o
    rackspaceEmailAliasesIndexLoop fetch fuel 0 o [] none

/-- The two-page service of the spec's pagination test: call 0 yields
offset 0, size 1, total 2, items [A]; call 1 yields offset 1, size 1,
total 2, items [B]; any further call errors, so a run that terminates with
no error made exactly the counted calls. -/
def twoPageFetch : Nat → DoResult String
  | 0 => ⟨some 0, Except.ok ⟨0, 1, 2, ["A"]⟩⟩
  | 1 => ⟨some 1, Except.ok ⟨1, 1, 2, ["B"]⟩⟩
  | _ => ⟨none, Except.error "no more pages"⟩

/-- A one-page service whose first page already satisfies
total ≤ size + offset. -/
def onePageFetch : Nat → DoResult String
  | 0 => ⟨some 0, Except.ok ⟨0, 1, 1, ["A"]⟩⟩
  | _ => ⟨none, Except.error "no more pages"⟩

/-- A service whose first page succeeds (items [A], more pages reported) and
whose second call fails with error boom and response 7. -/
def errFetch : Nat → DoResult String
  | 0 => ⟨some 0, Except.ok ⟨0, 1, 2, ["A"]⟩⟩
  | _ => ⟨some 7, Except.error "boom"⟩

/-- C1: the pagination loops of Domains.Index and RackspaceEmailAliases.Index
append each fetched page's items to the accumulator in fetch order (items
within a page in source order), stop immediately after a page with
total ≤ size + offset, and otherwise set offset to size + offset before the
next fetch; on the two-page service the aggregate is [A, B] in exactly two
fetch calls, and a first page with total ≤ size + offset makes exactly one
fetch call. -/
theorem c1_pagination {α : Type} (fetch : Nat → DoResult α) (fuel n : Nat)
    (opt : PageOptions) (acc : List α) (r0 rid : Option Nat) (root : PageEnv α)
    (hf : fetch n = ⟨rid, Except.ok root⟩) :
    (root.total ≤ root.size + root.offset →
      domainsIndexLoop fetch (fuel + 1) n opt acc r0 =
        some (⟨acc ++ root.items, rid, none⟩, n + 1) ∧
      rackspaceEmailAliasesIndexLoop fetch (fuel + 1) n opt acc r0 =
        some (⟨acc ++ root.items, r0, none⟩, n + 1)) ∧
    (¬ root.total ≤ root.size + root.offset →
      domainsIndexLoop fetch (fuel + 1) n opt acc r0 =
        domainsIndexLoop fetch fuel (n + 1) ⟨root.size + root.offset, opt.size⟩
          (acc ++ root.items) rid ∧
      rackspaceEmailAliasesIndexLoop fetch (fuel + 1) n opt acc r0 =
        rackspaceEmailAliasesIndexLoop fetch fuel (n + 1)
          ⟨root.size + root.offset, opt.size⟩ (acc ++ root.items) r0) ∧
    domainsIndex twoPageFetch 10 (some ⟨0, 1⟩) =
      some (⟨["A", "B"], some 1, none⟩, 2) ∧
    rackspaceEmailAliasesIndex twoPageFetch 10 (some ⟨0, 1⟩) "d" =
      some (⟨["A", "B"], none, none⟩, 2) ∧
    domainsIndex onePageFetch 10 (some ⟨0, 1⟩) =
      some (⟨["A"], some 0, none⟩, 1) := by
  refine ⟨?_, ?_, by decide, by decide, by decide⟩
  · intro hstop
    constructor
    · simp only [domainsIndexLoop, hf]
      simp [hstop]
    · simp only [rackspaceEmailAliasesIndexLoop, hf]
      simp [hstop]
  · intro hstop
    constructor
    · simp only [domainsIndexLoop, hf]
      simp [hstop]
    · simp only [rackspaceEmailAliasesIndexLoop, hf]
      simp [hstop]

/-- Witness for c1_pagination at the two-page service's second call. -/
theorem c1_pagination_witness :
    domainsIndexLoop twoPageFetch 10 1 ⟨1, 1⟩ ["A"] (some 0) =
      some (⟨["A", "B"], some 1, none⟩, 2) :=
  ((c1_pagination twoPageFetch 9 1 ⟨1, 1⟩ ["A"] (some 0) (some 1)
    ⟨1, 1, 2, ["B"]⟩ rfl).1 (by decide)).1

/-- C2 as stated is false: when the second fetch fails after a successful
first page that accumulated [A], both Index methods return an EMPTY item
slice (Go `return nil, resp, err`), not the accumulated [A]. -/
theorem c2_counterexample :
    domainsIndex errFetch 10 (some ⟨0, 1⟩) = some (⟨[], some 7, some "boom"⟩, 2) ∧
    rackspaceEmailAliasesIndex errFetch 10 (some ⟨0, 1⟩) "d" =
      some (⟨[], some 7, some "boom"⟩, 2) ∧
    ¬ Option.map (fun p => p.1.items) (domainsIndex errFetch 10 (some ⟨0, 1⟩)) =
      some ["A"] := by
  decide

/-- C2 amended: a page-fetch error aborts the loop at that point, but the
accumulated items are discarded: both Index methods return a nil item slice
together with the failing call's response and the error. -/
theorem c2_amended {α : Type} (fetch : Nat → DoResult α) (fuel n : Nat)
    (opt : PageOptions) (acc : List α) (r0 rid : Option Nat) (e : String)
    (hf : fetch n = ⟨rid, Except.error e⟩) :
    domainsIndexLoop fetch (fuel + 1) n opt acc r0 = some (⟨[], rid, some e⟩, n + 1) ∧
    rackspaceEmailAliasesIndexLoop fetch (fuel + 1) n opt acc r0 =
      some (⟨[], rid, some e⟩, n + 1) := by
  constructor
  · simp only [domainsIndexLoop, hf]
  · simp only [rackspaceEmailAliasesIndexLoop, hf]

/-- Witness for c2_amended at the failing second call of errFetch, with [A]
already accumulated. -/
theorem c2_amended_witness :
    domainsIndexLoop errFetch 9 1 ⟨1, 1⟩ ["A"] (some 0) =
      some (⟨[], some 7, some "boom"⟩, 2) :=
  (c2_amended errFetch 8 1 ⟨1, 1⟩ ["A"] (some 0) (some 7) "boom" rfl).1

/-- The part of an `http.Request` that `ErrorResponse.Error()` reads. -/
structure HttpRequest where
  method : String
  url : String
deriving DecidableEq

/-- The result of `ioutil.ReadAll(r.Body)`: either the full body bytes
(as text) or a read error. -/
inductive BodyRead where
  | ok (data : String)
  | readErr (e : String)
deriving DecidableEq

/-- The part of an `http.Response` that `CheckResponse` and `Client.Do`
inspect: the originating request, the status code, and the body. -/
structure HttpResponse where
  request : HttpRequest
  statusCode : Int
  body : BodyRead
deriving DecidableEq

/-- `ErrorResponse` from reago.go: carries the whole offending response
(hence its request's method and URL and its status code), a message and a
request id. Go zero values for the string fields are empty strings. -/
structure ErrorResponse where
  response : HttpResponse
  message : String
  requestID : String
deriving DecidableEq

/-- `CheckResponse` from reago.go. `parse` abstracts `json.Unmarshal` into
the error envelope: `some (message, requestID)` on success (absent JSON
fields yield the prior empty strings, which is the parse function's
business), `none` when the body does not parse. A status in [200, 299] is
success (`none`); otherwise an `ErrorResponse` is always produced: a body
read error or an empty body leaves both fields empty, a non-empty body that
parses fills the fields, and a non-empty body that fails to parse becomes
the message verbatim. -/
def CheckResponse (parse : String → Option (String × String)) (r : HttpResponse) :
    Option ErrorResponse :=
  if 200 ≤ r.statusCode ∧ r.statusCode ≤ 299 then none
  else
    match r.body with
    | BodyRead.readErr _ => some ⟨r, "", ""⟩
    | BodyRead.ok data =>
      if 0 < data.length then
        match parse data with
        | some (m, rid) => some ⟨r, m, rid⟩
        | none => some ⟨r, data, ""⟩
      else some ⟨r, "", ""⟩

/-- C3: CheckResponse returns no error exactly for status in [200, 299];
otherwise it returns an ErrorResponse carrying the request's method, URL and
the status code, whose fields come from the body when it is non-empty and
parses as the error envelope, whose message is the raw body when parsing
fails, and which is a fully-formed value even for an empty or unreadable
body; status 500 with an empty body gives an empty message and no request
id. -/
theorem c3_check_response (parse : String → Option (String × String))
    (r : HttpResponse) :
    (CheckResponse parse r = none ↔ 200 ≤ r.statusCode ∧ r.statusCode ≤ 299) ∧
    (¬ (200 ≤ r.statusCode ∧ r.statusCode ≤ 299) →
      ∃ er, CheckResponse parse r = some er ∧
        er.response = r ∧
        er.response.request.method = r.request.method ∧
        er.response.request.url = r.request.url ∧
        er.response.statusCode = r.statusCode ∧
        (∀ data m rid, r.body = BodyRead.ok data → 0 < data.length →
          parse data = some (m, rid) → er.message = m ∧ er.requestID = rid) ∧
        (∀ data, r.body = BodyRead.ok data → 0 < data.length →
          parse data = none → er.message = data) ∧
        (r.body = BodyRead.ok "" → er.message = "" ∧ er.requestID = "") ∧
        (∀ e, r.body = BodyRead.readErr e → er.message = "" ∧ er.requestID = "")) ∧
    (∀ req, CheckResponse parse ⟨req, 500, BodyRead.ok ""⟩ =
      some ⟨⟨req, 500, BodyRead.ok ""⟩, "", ""⟩) := by
  refine ⟨?_, ?_, ?_⟩
  · unfold CheckResponse
    by_cases h : 200 ≤ r.statusCode ∧ r.statusCode ≤ 299
    · simp [h]
    · simp only [if_neg h, iff_false_intro h, iff_false]
      cases hb : r.body with
      | readErr e => simp
      | ok data =>
        by_cases hd : 0 < data.length
        · simp only [if_pos hd]
          cases parse data with
          | none => simp
          | some p => cases p; simp
        · simp [hd]
  · intro h
    unfold CheckResponse
    simp only [if_neg h]
    cases hb : r.body with
    | readErr e =>
      refine ⟨⟨r, "", ""⟩, rfl, rfl, rfl, rfl, rfl, ?_, ?_, ?_, ?_⟩
      · intro data m rid hdata
        cases hdata
      · intro data hdata
        cases hdata
      · intro hdata
        cases hdata
      · intro e2 _
        exact ⟨rfl, rfl⟩
    | ok data =>
      by_cases hd : 0 < data.length
      · simp only [if_pos hd]
        cases hp : parse data with
        | none =>
          refine ⟨⟨r, data, ""⟩, rfl, rfl, rfl, rfl, rfl, ?_, ?_, ?_, ?_⟩
          · intro data2 m rid hdata hd2 hp2
            cases hdata
            rw [hp] at hp2; cases hp2
          · intro data2 hdata _ _
            cases hdata; rfl
          · intro hdata
            cases hdata
            cases hd
          · intro e hdata
            cases hdata
        | some p =>
          obtain ⟨m, rid⟩ := p
          refine ⟨⟨r, m, rid⟩, rfl, rfl, rfl, rfl, rfl, ?_, ?_, ?_, ?_⟩
          · intro data2 m2 rid2 hdata _ hp2
            cases hdata
            rw [hp] at hp2; cases hp2
            exact ⟨rfl, rfl⟩
          · intro data2 hdata _ hp2
            cases hdata
            rw [hp] at hp2; cases hp2
          · intro hdata
            cases hdata
            cases hd
          · intro e hdata
            cases hdata
      · simp only [if_neg hd]
        refine ⟨⟨r, "", ""⟩, rfl, rfl, rfl, rfl, rfl, ?_, ?_, ?_, ?_⟩
        · intro data2 m rid hdata hd2 _
          cases hdata
          exact absurd hd2 hd
        · intro data2 hdata hd2 _
          cases hdata
          exact absurd hd2 hd
        · intro _
          exact ⟨rfl, rfl⟩
        · intro e hdata
          cases hdata
  · intro req
    rfl

/-- Witness for c3_check_response: status 500 with an empty body yields the
fully-formed error value with empty message and request id. -/
theorem c3_check_response_witness :
    CheckResponse (fun _ => none) ⟨⟨"GET", "u"⟩, 500, BodyRead.ok ""⟩ =
      some ⟨⟨⟨"GET", "u"⟩, 500, BodyRead.ok ""⟩, "", ""⟩ :=
  (c3_check_response (fun _ => none) ⟨⟨"GET", "u"⟩, 500, BodyRead.ok ""⟩).2.2 ⟨"GET", "u"⟩

/-- The destination argument `v` of `Client.Do`: Go nil, a value satisfying
`io.Writer` (raw byte sink), or any other value, which is JSON-decoded into;
`decode` abstracts `json.NewDecoder(resp.Body).Decode(v)`. -/
inductive Dest (α : Type) where
  | nilDest
  | writer
  | structured (decode : String → Except String α)

/-- What the tail of `Client.Do` does after `CheckResponse`: return the API
error without touching `v`, return success with no decoding, copy the body
into the sink, decode the body, or fail with a copy/decode error (the Go
`return nil, err` paths after `io.Copy` / `Decode`). -/
inductive DoOutcome (α : Type) where
  | apiError (er : ErrorResponse)
  | okNoDecode
  | sinkFilled (written : String)
  | decoded (a : α)
  | failed (e : String)
deriving DecidableEq

/-- The classification-and-decode tail of `Client.Do` (reago.go): classify
with `CheckResponse`; on an API error return it with no decode attempt; then
dispatch on `v` exactly as the source does (nil, `io.Writer`, JSON decode). -/
def doDispatch {α : Type} (parse : String → Option (String × String))
    (r : HttpResponse) (v : Dest α) : DoOutcome α :=
  match CheckResponse parse r with
  | some er => DoOutcome.apiError er
  | none =>
    match v with
    | Dest.nilDest => DoOutcome.okNoDecode
    | Dest.writer =>
      match r.body with
      | BodyRead.ok data => DoOutcome.sinkFilled data
      | BodyRead.readErr e => DoOutcome.failed e
    | Dest.structured decode =>
      match r.body with
      | BodyRead.readErr e => DoOutcome.failed e
      | BodyRead.ok data =>
        match decode data with
        | Except.ok a => DoOutcome.decoded a
        | Except.error e => DoOutcome.failed e

/-- C4: for a 2xx response, a nil destination means success with no decoding,
an io.Writer destination receives the full body verbatim with no structured
decoding, and any other destination is JSON-decoded with a decode failure
surfaced as an error distinct from an API-level ErrorResponse; for a non-2xx
response the outcome is the API error for every destination, so no decode
into v is ever attempted. -/
theorem c4_do_dispatch {α : Type} (parse : String → Option (String × String))
    (r : HttpResponse) :
    (200 ≤ r.statusCode ∧ r.statusCode ≤ 299 →
      doDispatch parse r (Dest.nilDest : Dest α) = DoOutcome.okNoDecode ∧
      (∀ data, r.body = BodyRead.ok data →
        doDispatch parse r (Dest.writer : Dest α) = DoOutcome.sinkFilled data) ∧
      (∀ (decode : String → Except String α) (data : String) (a : α),
        r.body = BodyRead.ok data → decode data = Except.ok a →
        doDispatch parse r (Dest.structured decode) = DoOutcome.decoded a) ∧
      (∀ (decode : String → Except String α) (data e : String),
        r.body = BodyRead.ok data → decode data = Except.error e →
        doDispatch parse r (Dest.structured decode) = DoOutcome.failed e)) ∧
    (¬ (200 ≤ r.statusCode ∧ r.statusCode ≤ 299) →
      ∀ v : Dest α, ∃ er, doDispatch parse r v = DoOutcome.apiError er) ∧
    (∀ (e : String) (er : ErrorResponse),
      (DoOutcome.failed e : DoOutcome α) ≠ DoOutcome.apiError er) := by
  have hcheck : ∀ h : 200 ≤ r.statusCode ∧ r.statusCode ≤ 299,
      CheckResponse parse r = none := by
    intro h
    unfold CheckResponse
    simp [h]
  refine ⟨?_, ?_, ?_⟩
  · intro h
    refine ⟨?_, ?_, ?_, ?_⟩
    · simp [doDispatch, hcheck h]
    · intro data hdata
      simp [doDispatch, hcheck h, hdata]
    · intro decode data a hdata hdec
      simp [doDispatch, hcheck h, hdata, hdec]
    · intro decode data e hdata hdec
      simp [doDispatch, hcheck h, hdata, hdec]
  · intro h v
    have : ∃ er, CheckResponse parse r = some er := by
      unfold CheckResponse
      simp only [if_neg h]
      cases r.body with
      | readErr e => exact ⟨_, rfl⟩
      | ok data =>
        by_cases hd : 0 < data.length
        · simp only [if_pos hd]
          cases parse data with
          | none => exact ⟨_, rfl⟩
          | some p => cases p; exact ⟨_, rfl⟩
        · simp only [if_neg hd]
          exact ⟨_, rfl⟩
    obtain ⟨er, her⟩ := this
    exact ⟨er, by simp [doDispatch, her]⟩
  · intro e er
    exact fun hcontra => DoOutcome.noConfusion hcontra

/-- Witness for c4_do_dispatch: a 2xx response with body abc copied verbatim
into an io.Writer destination. -/
theorem c4_do_dispatch_witness :
    doDispatch (fun _ => none) ⟨⟨"GET", "u"⟩, 200, BodyRead.ok "abc"⟩
      (Dest.writer : Dest Nat) = DoOutcome.sinkFilled "abc" :=
  ((c4_do_dispatch (fun _ => none)
    ⟨⟨"GET", "u"⟩, 200, BodyRead.ok "abc"⟩).1 (by decide)).2.1 "abc" rfl

/-- The two rate-limit buckets of the client: `getLimiter` gates reads,
`putPostDeleteLimiter` gates everything else. -/
inductive Bucket where
  | read
  | write
deriving DecidableEq

/-- The bucket selection of the `switch req.Method` in `Client.Do`: the GET
case uses the read bucket, the default case the write bucket. -/
def selectBucket (method : String) : Bucket :=
  if method = "GET" then Bucket.read else Bucket.write

/-- Result of `rate.Limiter.Wait(ctx)`: a token was granted, or the context
was cancelled (or timed out) while waiting, in which case no token is
consumed. -/
inductive WaitResult where
  | granted
  | cancelled (e : String)
deriving DecidableEq

/-- Observable effects of the front half of `Client.Do`: the error returned
(if the wait was aborted), how many network calls were made, and how many
tokens were consumed from each bucket. -/
structure DoFrontResult where
  err : Option String
  networkCalls : Nat
  readTokens : Nat
  writeTokens : Nat
deriving DecidableEq

/-- The rate-limiting front half of `Client.Do` (reago.go): select the bucket
by method, wait on it; a cancellation returns the error with no network call
and no token consumed; a granted token proceeds to exactly one transport
call. -/
def doFront (method : String) (wait : Bucket → WaitResult) : DoFrontResult :=
  match selectBucket method with
  | Bucket.read =>
    match wait Bucket.read with
    | WaitResult.cancelled e => ⟨some e, 0, 0, 0⟩
    | WaitResult.granted => ⟨none, 1, 1, 0⟩
  | Bucket.write =>
    match wait Bucket.write with
    | WaitResult.cancelled e => ⟨some e, 0, 0, 0⟩
    | WaitResult.granted => ⟨none, 1, 0, 1⟩

/-- C5: the bucket is selected solely by HTTP method: a GET dispatch consumes
one token from the read bucket and none from the write bucket, any other
method consumes one token from the write bucket and none from the read
bucket, and exactly one token is consumed per dispatch. -/
theorem c5_rate_bucket (method : String) (wait : Bucket → WaitResult)
    (hw : ∀ b, wait b = WaitResult.granted) :
    (method = "GET" → doFront method wait = ⟨none, 1, 1, 0⟩) ∧
    (method ≠ "GET" → doFront method wait = ⟨none, 1, 0, 1⟩) ∧
    (doFront method wait).readTokens + (doFront method wait).writeTokens = 1 := by
  refine ⟨?_, ?_, ?_⟩
  · intro h
    simp [doFront, selectBucket, h, hw]
  · intro h
    simp [doFront, selectBucket, h, hw]
  · by_cases h : method = "GET" <;> simp [doFront, selectBucket, h, hw]

/-- Witness for c5_rate_bucket: a granted GET dispatch takes the read
bucket. -/
theorem c5_rate_bucket_witness :
    doFront "GET" (fun _ => WaitResult.granted) =
      (⟨none, 1, 1, 0⟩ : DoFrontResult) :=
  (c5_rate_bucket "GET" (fun _ => WaitResult.granted) (fun _ => rfl)).1 rfl

/-- C6: if the context is cancelled while waiting for a rate-limit token, Do
returns the cancellation error and performs zero network calls (and consumes
no token). -/
theorem c6_cancellation (method : String) (wait : Bucket → WaitResult) (e : String)
    (hw : wait (selectBucket method) = WaitResult.cancelled e) :
    doFront method wait = ⟨some e, 0, 0, 0⟩ ∧
    (doFront method wait).networkCalls = 0 := by
  have : doFront method wait = ⟨some e, 0, 0, 0⟩ := by
    unfold doFront
    cases hb : selectBucket method with
    | read => rw [hb] at hw; rw [hw]
    | write => rw [hb] at hw; rw [hw]
  exact ⟨this, by rw [this]⟩

/-- Witness for c6_cancellation: a cancelled wait on a POST dispatch. -/
theorem c6_cancellation_witness :
    doFront "POST" (fun _ => WaitResult.cancelled "context canceled") =
      (⟨some "context canceled", 0, 0, 0⟩ : DoFrontResult) :=
  (c6_cancellation "POST" (fun _ => WaitResult.cancelled "context canceled")
    "context canceled" rfl).1

/-- Headers as an ordered list of key-value pairs. `http.Header.Get` returns
the first value set for a key (empty string when absent). All keys used by
the client are distinct, so list order is immaterial. -/
def headerGet (hs : List (String × String)) (k : String) : String :=
  match hs.find? (fun p => p.1 == k) with
  | some p => p.2
  | none => ""

/-- `http.Header.Add`: appends a value for a key. -/
def headerAdd (hs : List (String × String)) (k v : String) : List (String × String) :=
  hs ++ [(k, v)]

theorem headerGet_headerAdd_same (hs : List (String × String)) (k v : String)
    (h : ∀ p ∈ hs, ¬ p.1 = k) : headerGet (headerAdd hs k v) k = v := by
  unfold headerGet headerAdd
  have hnone : hs.find? (fun p => p.1 == k) = none := by
    rw [List.find?_eq_none]
    intro p hp
    simpa using h p hp
  rw [List.find?_append, hnone]
  simp [List.find?]

theorem headerGet_headerAdd_other (hs : List (String × String)) (k v k2 : String)
    (h : ¬ k = k2) : headerGet (headerAdd hs k v) k2 = headerGet hs k2 := by
  unfold headerGet headerAdd
  rw [List.find?_append]
  have hb : (k == k2) = false := by
    simpa using h
  have hone : List.find? (fun p => p.1 == k2) [(k, v)] = none := by
    simp [List.find?, hb]
  rw [hone]
  cases hs.find? (fun p => p.1 == k2) <;> rfl

/-- A calendar timestamp, each component a natural number. -/
structure DateTime where
  year : Nat
  month : Nat
  day : Nat
  hour : Nat
  minute : Nat
  second : Nat

/-- Zero-pads the decimal rendering of `n` on the left to `width` digits,
as Go `time.Format` does for each component of the layout 20060102150405. -/
def padNum (width n : Nat) : String :=
  let s := toString n
  String.mk (List.replicate (width - s.length) (Char.ofNat 48)) ++ s

/-- The Go layout 20060102150405, i.e. YYYYMMDDHHMMSS. -/
def formatTimestamp (t : DateTime) : String :=
  padNum 4 t.year ++ padNum 2 t.month ++ padNum 2 t.day ++
    padNum 2 t.hour ++ padNum 2 t.minute ++ padNum 2 t.second

/-- The request as `Client.sign` sees it: its headers. -/
structure SignRequest where
  headers : List (String × String)

/-- `Client.sign` from reago.go: reads the request's User-Agent header,
hashes identity ++ userAgent ++ timestamp ++ secret (`hash` abstracts SHA-1,
`b64` abstracts standard base64), and adds the X-Api-Signature header
identity:timestamp:base64(hash(...)). -/
def sign (userKey secretKey : String) (hash : String → List Nat)
    (b64 : List Nat → String) (ts : String) (req : SignRequest) : SignRequest :=
  let ua := headerGet req.headers "User-Agent"
  let b64s := b64 (hash (userKey ++ ua ++ ts ++ secretKey))
  let sig := userKey ++ ":" ++ ts ++ ":" ++ b64s
  ⟨headerAdd req.headers "X-Api-Signature" sig⟩

/-- C7: sign attaches an X-Api-Signature header of the exact form
identity:timestamp:base64(hash(identity ++ userAgent ++ timestamp ++ secret))
with the userAgent read from the request's User-Agent header, the header list
otherwise only extended; the timestamp layout 20060102150405 renders as
YYYYMMDDHHMMSS; the value is a pure function of those inputs. -/
theorem c7_sign (userKey secretKey : String) (hash : String → List Nat)
    (b64 : List Nat → String) (t : DateTime) (req : SignRequest)
    (hns : ∀ p ∈ req.headers, ¬ p.1 = "X-Api-Signature") :
    (sign userKey secretKey hash b64 (formatTimestamp t) req).headers =
      headerAdd req.headers "X-Api-Signature"
        (userKey ++ ":" ++ formatTimestamp t ++ ":" ++
          b64 (hash (userKey ++ headerGet req.headers "User-Agent" ++
            formatTimestamp t ++ secretKey))) ∧
    headerGet (sign userKey secretKey hash b64 (formatTimestamp t) req).headers
        "X-Api-Signature" =
      userKey ++ ":" ++ formatTimestamp t ++ ":" ++
        b64 (hash (userKey ++ headerGet req.headers "User-Agent" ++
          formatTimestamp t ++ secretKey)) ∧
    formatTimestamp ⟨2019, 5, 7, 9, 30, 5⟩ = "20190507093005" := by
  refine ⟨rfl, ?_, by decide⟩
  exact headerGet_headerAdd_same req.headers _ _ hns

/-- Witness for c7_sign on a concrete request carrying only a User-Agent
header. -/
theorem c7_sign_witness :
    headerGet (sign "id" "sec" (fun _ => []) (fun _ => "HASH")
        (formatTimestamp ⟨2019, 5, 7, 9, 30, 5⟩)
        ⟨[("User-Agent", "reago/1.0")]⟩).headers "X-Api-Signature" =
      "id" ++ ":" ++ formatTimestamp ⟨2019, 5, 7, 9, 30, 5⟩ ++ ":" ++ "HASH" :=
  (c7_sign "id" "sec" (fun _ => []) (fun _ => "HASH") ⟨2019, 5, 7, 9, 30, 5⟩
    ⟨[("User-Agent", "reago/1.0")]⟩ (by decide)).2.1

/-- `mediaType` constant from reago.go. -/
def mediaType : String := "application/json"

/-- The headers attached by `Client.NewRequest` (reago.go, before signing):
Content-Type is application/x-www-form-urlencoded when the method is POST —
the source branches on the method ALONE, the body map does not enter the
choice — and the structured media type otherwise; then Accept and
User-Agent. -/
def newRequestHeaders (userAgent method : String)
    (body : Option (List (String × String))) : List (String × String) :=
  let h : List (String × String) := []
  let h := if method = "POST" then
      headerAdd h "Content-Type" "application/x-www-form-urlencoded"
    else
      headerAdd h "Content-Type" mediaType
  let h := headerAdd h "Accept" mediaType
  headerAdd h "User-Agent" userAgent

theorem newRequestHeaders_contentType (ua method : String)
    (body : Option (List (String × String))) :
    headerGet (newRequestHeaders ua method body) "Content-Type" =
      if method = "POST" then "application/x-www-form-urlencoded" else mediaType := by
  unfold newRequestHeaders
  by_cases h : method = "POST" <;>
    simp only [h, if_pos, if_neg, ite_true, ite_false] <;>
    rw [headerGet_headerAdd_other _ _ _ _ (by decide),
      headerGet_headerAdd_other _ _ _ _ (by decide),
      headerGet_headerAdd_same _ _ _ (by intro p hp; cases hp)]

/-- C8 as stated is false: a POST request with NO body still gets
Content-Type application/x-www-form-urlencoded, not the structured media
type, because NewRequest branches on the method alone. -/
theorem c8_counterexample :
    headerGet (newRequestHeaders "reago/1.0" "POST" none) "Content-Type" =
      "application/x-www-form-urlencoded" ∧
    ¬ headerGet (newRequestHeaders "reago/1.0" "POST" none) "Content-Type" =
      mediaType := by
  constructor
  · rw [newRequestHeaders_contentType]
    decide
  · rw [newRequestHeaders_contentType]
    decide

/-- C8 amended: the Content-Type header is
application/x-www-form-urlencoded exactly when the method is POST,
regardless of whether a body mapping is present, and the structured media
type application/json in every other case. -/
theorem c8_amended (ua method : String) (body : Option (List (String × String))) :
    (headerGet (newRequestHeaders ua method body) "Content-Type" =
        "application/x-www-form-urlencoded" ↔ method = "POST") ∧
    (¬ method = "POST" →
      headerGet (newRequestHeaders ua method body) "Content-Type" = mediaType) := by
  rw [newRequestHeaders_contentType]
  by_cases h : method = "POST"
  · simp [h]
  · have hne : ¬ mediaType = "application/x-www-form-urlencoded" := by decide
    simp [h, hne]

/-- Witness for c8_amended: a GET request gets the structured media type. -/
theorem c8_amended_witness :
    headerGet (newRequestHeaders "reago/1.0" "GET" none) "Content-Type" =
      mediaType :=
  (c8_amended "reago/1.0" "GET" none).2 (by decide)

/-- `addOptions` applied to a `PageOptions` value (reago.go): go-querystring
renders the url-tagged fields with omitempty, so a zero offset or size is
dropped from the query entirely; `url.Values.Encode` sorts keys, and offset
sorts before size. -/
def pageQuery (opt : PageOptions) : List (String × String) :=
  (if opt.offset = 0 then [] else [("offset", toString opt.offset)]) ++
    (if opt.size = 0 then [] else [("size", toString opt.size)])

/-- The option normalization each Index method performs before its first
fetch: ONLY nil options are replaced by offset 0 and the default page size;
a non-nil value is used as given, even when its size is zero. -/
def effectiveOpt (opt : Option PageOptions) : PageOptions :=
  match opt with
  | none => ⟨0, defaultPageSize⟩
  | some o => o

/-- The query-string pairs of the first page request a listing call issues. -/
def issuedQuery (opt : Option PageOptions) : List (String × String) :=
  pageQuery (effectiveOpt opt)

/-- C9 as stated is false: options that are present with Size equal to 0 do
NOT get the default page size; the issued request simply omits the size
parameter (omitempty), so no size — let alone the default 50 — appears in
its query. -/
theorem c9_counterexample :
    issuedQuery (some ⟨0, 0⟩) = [] ∧
    ¬ ("size", toString defaultPageSize) ∈ issuedQuery (some ⟨0, 0⟩) := by
  constructor
  · rfl
  · intro hmem
    cases hmem

/-- C9 amended: only nil options receive the client default page size (the
issued query then carries size 50); non-nil options with Size 0 issue the
request with the size parameter omitted entirely (no client-side default is
applied), and a non-zero Size is passed through as given. -/
theorem c9_amended :
    ("size", toString defaultPageSize) ∈ issuedQuery none ∧
    (∀ off : Int, ∀ p ∈ issuedQuery (some ⟨off, 0⟩), ¬ p.1 = "size") ∧
    (∀ off sz : Int, ¬ sz = 0 → ("size", toString sz) ∈ issuedQuery (some ⟨off, sz⟩)) := by
  refine ⟨by decide, ?_, ?_⟩
  · intro off p hp
    simp only [issuedQuery, effectiveOpt, pageQuery] at hp
    by_cases h0 : off = (0 : Int)
    · simp [h0] at hp
    · simp [h0] at hp
      rw [hp]
      show ¬ "offset" = "size"
      decide
  · intro off sz hsz
    simp [issuedQuery, effectiveOpt, pageQuery, hsz]

/-- Witness for c9_amended: an explicit size 7 is passed through. -/
theorem c9_amended_witness :
    ("size", toString (7 : Int)) ∈ issuedQuery (some ⟨0, 7⟩) :=
  c9_amended.2.2 0 7 (by decide)

theorem rackspaceAliasesLoop_outer_resp {α : Type} (fetch : Nat → DoResult α)
    (fuel : Nat) :
    ∀ (n : Nat) (opt : PageOptions) (acc : List α) (r0 : Option Nat)
      (ret : IndexReturn α) (calls : Nat),
      rackspaceEmailAliasesIndexLoop fetch fuel n opt acc r0 = some (ret, calls) →
      ret.err = none → ret.resp = r0 := by
  induction fuel with
  | zero =>
    intro n opt acc r0 ret calls h
    simp [rackspaceEmailAliasesIndexLoop] at h
  | succ fuel ih =>
    intro n opt acc r0 ret calls h hok
    simp only [rackspaceEmailAliasesIndexLoop] at h
    cases hf : (fetch n).out with
    | error e =>
      simp only [hf] at h
      have h1 : (⟨[], (fetch n).resp, some e⟩ : IndexReturn α) = ret :=
        congrArg Prod.fst (Option.some.inj h)
      rw [← h1] at hok
      cases hok
    | ok root =>
      simp only [hf] at h
      by_cases hstop : root.total ≤ root.size + root.offset
      · rw [if_pos hstop] at h
        have h1 : (⟨acc ++ root.items, r0, none⟩ : IndexReturn α) = ret :=
          congrArg Prod.fst (Option.some.inj h)
        rw [← h1]
      · rw [if_neg hstop] at h
        exact ih (n + 1) ⟨root.size + root.offset, opt.size⟩ (acc ++ root.items)
          r0 ret calls h hok

/-- C10: every error-free completion of RackspaceEmailAliases.Index returns a
nil *Response — the loop's `resp, err := s.client.Do(...)` binds a shadowed
local, so the outer response returned on the success path is never assigned —
unlike Domains.Index, which on the same two-page service returns the last
page's response. -/
theorem c10_aliases_resp_nil {α : Type} (fetch : Nat → DoResult α) (fuel : Nat)
    (opt : Option PageOptions) (domain : String) (ret : IndexReturn α) (calls : Nat)
    (h : rackspaceEmailAliasesIndex fetch fuel opt domain = some (ret, calls))
    (hok : ret.err = none) :
    ret.resp = none ∧
    rackspaceEmailAliasesIndex twoPageFetch 10 (some ⟨0, 1⟩) "d" =
      some (⟨["A", "B"], none, none⟩, 2) ∧
    domainsIndex twoPageFetch 10 (some ⟨0, 1⟩) =
      some (⟨["A", "B"], some 1, none⟩, 2) := by
  refine ⟨?_, by decide, by decide⟩
  unfold rackspaceEmailAliasesIndex at h
  by_cases hd : domain.length < 1
  · rw [if_pos hd] at h
    have h1 : (⟨[], none,
        some (ArgError.message ⟨"domain", "it cannot be an empty string"⟩)⟩ :
        IndexReturn α) = ret :=
      congrArg Prod.fst (Option.some.inj h)
    rw [← h1] at hok
    cases hok
  · rw [if_neg hd] at h
    exact rackspaceAliasesLoop_outer_resp fetch fuel 0 _ [] none ret calls h hok

/-- Witness for c10_aliases_resp_nil on the two-page service. -/
theorem c10_aliases_resp_nil_witness :
    (⟨["A", "B"], none, none⟩ : IndexReturn String).resp = none :=
  (c10_aliases_resp_nil twoPageFetch 10 (some ⟨0, 1⟩) "d"
    ⟨["A", "B"], none, none⟩ 2 (by decide) rfl).1
